import Mathlib

/-!
Shallow embedding of `src/authorization.js` from strider-github-oauth.

The JavaScript module exports `makeStrategyCallback(context)`, which closes
over a Strider `User` model, a logger, and a process-wide team-id cache, and
returns the OAuth strategy verification callback.  We embed the callback-style
code as pure Lean functions with explicit state passing:

  - the GitHub API client (`gh`) is a record bundling the profile, the access
    token and an oracle of collaborator responses (each API call either fails
    with an error or yields a value, exactly as the node callbacks do);
  - the account store is a `Store` value: the list of persisted users, plus
    injectable failures for `find`/`save` and a counter of issued saves;
  - the process-wide team-id cache is a `TeamIds` value threaded through;
  - `callback(err, value)` becomes `Except AuthError (Option User)`.

Functions keep the names of the source functions.  Where a function needs to
report which external API calls it made (the claims speak about lookups being
skipped or retried), it additionally returns a call count.
-/

/-- Authorization levels.  The source uses a fresh sentinel object for
`UNAUTHORIZED` and the numbers 0 / 1 (Strider access levels) for
`ACCESS` / `ADMIN`; a closed sum type models the three distinct values. -/
inductive Level where
  | UNAUTHORIZED
  | ACCESS
  | ADMIN
deriving DecidableEq, Repr

/-- Errors surfaced through the node callbacks.  `noVerifiedEmail` and
`ambiguousAccount` are the two `new Error(...)` values built by the module,
`userNotAuthorized` is the `new Error("User not authorized")` from the
strategy callback, and `transport` stands for any error object produced by
the GitHub client or the account store and propagated unchanged. -/
inductive AuthError where
  | noVerifiedEmail
  | ambiguousAccount (emails : List String)
  | transport (msg : String)
  | userNotAuthorized
deriving DecidableEq, Repr

/-- One entry of the list returned by the GitHub emails API. -/
structure EmailEntry where
  email : String
  verified : Bool
  primary : Bool
deriving DecidableEq, Repr

/-- The fields of the passport GitHub profile that the module reads
(`profile.id`, `profile.username`, `profile.displayName`,
`profile.profileUrl`, `profile._json.gravatar_id`). -/
structure GHProfile where
  id : String
  username : String
  displayName : String
  profileUrl : String
  gravatarId : String
deriving DecidableEq, Repr

/-- Responses of the external GitHub API client, one field per method used by
the module.  Each response is the pair the node callback would deliver:
an error, or the value. -/
structure ApiOracle where
  emailsResp : Except AuthError (List EmailEntry)
  orgResp : Except AuthError (Bool × Bool)
  findTeamResp : String → String → Except AuthError (Option Nat)
  teamResp : Nat → Except AuthError Bool

/-- The per-request GitHub client: `new GitHub(profile, accessToken)`,
plus the oracle of collaborator responses. -/
structure GitHub where
  profile : GHProfile
  accessToken : String
  api : ApiOracle

/-- The `config` subdocument of a linked provider account, as populated by
`syncUserModel`. -/
structure IdentityConfig where
  accessToken : String
  login : String
  email : String
  gravatarId : String
  name : String
deriving DecidableEq, Repr

/-- A linked provider account subdocument on the Strider `User` model. -/
structure LinkedAccount where
  provider : String
  id : String
  display_url : String
  title : String
  config : IdentityConfig
  cache : List String
deriving DecidableEq, Repr

/-- The Strider `User` model, restricted to the fields this module touches.
`uid` is the record identity (which mongoose document this is), used to give
`save` its update-in-place semantics.  `account_level` is `none` while the
field has never been assigned. -/
structure User where
  uid : Nat
  email : String
  created : Nat
  password : String
  projects : List Nat
  account_level : Option Level
  accounts : List LinkedAccount
deriving DecidableEq, Repr, Inhabited

/-- The account store: persisted users plus injectable collaborator failures
(`User.find` / `save` calling back with an error) and a count of issued
saves. -/
structure Store where
  db : List User
  findFails : Option AuthError
  saveFails : Option AuthError
  saves : Nat
deriving Repr

/-- `save` on a user document: update the persisted record with the same
identity in place, or insert the document if it is new.  Every issued save
bumps the counter. -/
def storeSave (st : Store) (u : User) : Store :=
  { st with
    db := if st.db.any (fun v => v.uid == u.uid)
          then st.db.map (fun v => if v.uid == u.uid then u else v)
          else st.db ++ [u],
    saves := st.saves + 1 }

/-- JavaScript truthiness of a possibly-absent string (`undefined` and the
empty string are falsy). -/
def optTruthy : Option String → Bool
  | none => false
  | some s => decide (s ≠ "")

/-- JavaScript `String.prototype.toLowerCase`, character-wise. -/
def downcase (s : String) : String := ⟨s.data.map Char.toLower⟩

/-- One iteration of the `verified.map` loop in `emailsFromGitHub`: downcase
the address, and capture it as primary when the entry is flagged primary and
the `primary` variable is still falsy. -/
def scanStep (acc : List String × Option String) (r : EmailEntry) :
    List String × Option String :=
  let downcased := downcase r.email
  let primary := if r.primary && !(optTruthy acc.2) then some downcased else acc.2
  (acc.1 ++ [downcased], primary)

/-- The whole `verified.map` loop with its mutable `primary` variable. -/
def scanEmails (verified : List EmailEntry) : List String × Option String :=
  verified.foldl scanStep ([], none)

/-- `emailsFromGitHub`: fetch the profile emails, keep the verified ones,
fail when none are verified, downcase every address, pick the primary
(first entry flagged primary, with the `if (!primary) primary = addresses[0]`
fallback). -/
def emailsFromGitHub (gh : GitHub) : Except AuthError (List String × String) :=
  match gh.api.emailsResp with
  | .error e => .error e
  | .ok emails =>
    let verified := emails.filter (fun r => r.verified)
    if verified.length = 0 then
      .error .noVerifiedEmail
    else
      let scanned := scanEmails verified
      let addresses := scanned.1
      let primary := if optTruthy scanned.2 then scanned.2.getD "" else addresses.headD ""
      .ok (addresses, primary)
/-- The fresh `new User()` built by `findUser` for the zero-match branch,
with the four fields the source assigns (`email`, `created`, `password`,
`projects`).  Modelled from the spec: the Strider `User` model itself is not
part of this repository; per the account-store collaborator description a
freshly constructed record starts with an empty linked-identity list and an
unset authorization level.  `uid` is the fresh document identity. -/
def newUser (uid : Nat) (primary : String) (now : Nat) (randomPw : String) : User :=
  { uid := uid, email := primary, created := now, password := randomPw,
    projects := [], account_level := none, accounts := [] }

/-- `findUser`: normalize the profile emails, query the store for users with
any of those addresses, fail on more than one match, create and save a fresh
user on zero matches, return the single match otherwise.  `now` is the value
of `new Date()`, `randomPw` the string produced from `crypto.randomBytes`,
and `freshUid` the identity of a document not yet in the store. -/
def findUser (gh : GitHub) (st : Store) (now : Nat) (randomPw : String) (freshUid : Nat) :
    Except AuthError User × Store :=
  match emailsFromGitHub gh with
  | .error e => (.error e, st)
  | .ok (addresses, primary) =>
    match st.findFails with
    | some e => (.error e, st)
    | none =>
      let results := st.db.filter (fun u => addresses.contains u.email)
      if results.length > 1 then
        (.error (.ambiguousAccount (results.map (fun r => r.email))), st)
      else if results.length = 0 then
        let user := newUser freshUid primary now randomPw
        match st.saveFails with
        | some e => (.error e, { st with saves := st.saves + 1 })
        | none => (.ok user, storeSave st user)
      else
        (.ok results.headI, st)

/-- `checkOrgMembership`: one organization-membership query; member plus
admin maps to `ADMIN`, member without admin to `ACCESS`, anything else to
`UNAUTHORIZED`. -/
def checkOrgMembership (gh : GitHub) : Except AuthError Level :=
  match gh.api.orgResp with
  | .error e => .error e
  | .ok (isMember, isAdmin) =>
    if isMember && isAdmin then .ok .ADMIN
    else if isMember && !isAdmin then .ok .ACCESS
    else .ok .UNAUTHORIZED

/-- The two logical team roles, the keys of the process-wide cache. -/
inductive Role where
  | access
  | admin
deriving DecidableEq, Repr

/-- The process-wide `teamIds` cache (`null` becomes `none`). -/
structure TeamIds where
  access : Option Nat
  admin : Option Nat
deriving DecidableEq, Repr

/-- `teamIds[teamType]`. -/
def TeamIds.get (c : TeamIds) : Role → Option Nat
  | .access => c.access
  | .admin => c.admin

/-- `teamIds[teamType] = id`. -/
def TeamIds.set (c : TeamIds) : Role → Nat → TeamIds
  | .access, id => { c with access := some id }
  | .admin, id => { c with admin := some id }

/-- Process configuration: the organization name and the two optional team
names (`undefined` becomes `none`). -/
structure Config where
  orgName : String
  accessTeamName : Option String
  adminTeamName : Option String
deriving DecidableEq, Repr

/-- `config[teamType + "TeamName"]`. -/
def teamNameFor (cfg : Config) : Role → Option String
  | .access => cfg.accessTeamName
  | .admin => cfg.adminTeamName

/-- `ensureTeamId`: skip the lookup when the id is already cached or the team
name is not configured; otherwise query `findTeamWithName` and cache the id
on success.  A not-found reply (`id === null`) only logs; nothing is cached.
The third component counts the `findTeamWithName` calls made. -/
def ensureTeamId (gh : GitHub) (cfg : Config) (teamType : Role) (cache : TeamIds) :
    Except AuthError Unit × TeamIds × Nat :=
  if (cache.get teamType).isSome then
    (.ok (), cache, 0)
  else
    let teamName := teamNameFor cfg teamType
    if !optTruthy teamName then
      (.ok (), cache, 0)
    else
      match gh.api.findTeamResp cfg.orgName (teamName.getD "") with
      | .error e => (.error e, cache, 1)
      | .ok none => (.ok (), cache, 1)
      | .ok (some id) => (.ok (), cache.set teamType id, 1)

/-- `ensureTeamIds`: the `async.parallel` pair of `ensureTeamId` calls.  Both
tasks run (the source launches both before either completes; they touch
disjoint cache fields), and the first listed error wins. -/
def ensureTeamIds (gh : GitHub) (cfg : Config) (cache : TeamIds) :
    Except AuthError Unit × TeamIds × Nat :=
  let ra := ensureTeamId gh cfg .access cache
  let rb := ensureTeamId gh cfg .admin ra.2.1
  (match ra.1 with
   | .error e => .error e
   | .ok _ => rb.1, rb.2.1, ra.2.2 + rb.2.2)

/-- `checkTeamMembership`: resolve both team ids, answer `UNAUTHORIZED`
when either is still unresolved, otherwise run both `belongsToTeam` queries
(the `async.parallel` pair) and map admin membership to `ADMIN`, access
membership to `ACCESS`, neither to `UNAUTHORIZED`.  The third component
counts the `belongsToTeam` calls made. -/
def checkTeamMembership (gh : GitHub) (cfg : Config) (cache : TeamIds) :
    Except AuthError Level × TeamIds × Nat :=
  let r := ensureTeamIds gh cfg cache
  match r.1 with
  | .error e => (.error e, r.2.1, 0)
  | .ok _ =>
    match (r.2.1).access, (r.2.1).admin with
    | some accessId, some adminId =>
      (match gh.api.teamResp accessId, gh.api.teamResp adminId with
       | .error e, _ => .error e
       | .ok _, .error e => .error e
       | .ok a, .ok d =>
         if d then .ok .ADMIN else if a then .ok .ACCESS else .ok .UNAUTHORIZED,
       r.2.1, 2)
    | _, _ => (.ok .UNAUTHORIZED, r.2.1, 0)

/-- `checkAuthorization`: team mode when both team names are configured
(truthy), organization mode otherwise. -/
def checkAuthorization (gh : GitHub) (cfg : Config) (cache : TeamIds) :
    Except AuthError Level × TeamIds × Nat :=
  if optTruthy cfg.accessTeamName && optTruthy cfg.adminTeamName then
    checkTeamMembership gh cfg cache
  else
    (checkOrgMembership gh, cache, 0)

/-- `user.account(provider, id)`: the linked account subdocument for the
given provider and external id, when present. -/
def userAccount (u : User) (provider : String) (id : String) : Option LinkedAccount :=
  u.accounts.find? (fun a => a.provider == provider && a.id == id)

/-- The provider-account subdocument pushed by `syncUserModel`, populated
from the profile and the current access token. -/
def mkLinked (gh : GitHub) (u : User) : LinkedAccount :=
  { provider := "github", id := gh.profile.id, display_url := gh.profile.profileUrl,
    title := gh.profile.username,
    config := { accessToken := gh.accessToken, login := gh.profile.username,
                email := u.email, gravatarId := gh.profile.gravatarId,
                name := gh.profile.displayName },
    cache := [] }

/-- The pure user update performed by `syncUserModel` before saving: assign
`account_level`, and push a linked github account unless one already exists
for this profile id. -/
def syncedUser (gh : GitHub) (u : User) (authorization : Level) : User :=
  let u1 := { u with account_level := some authorization }
  match userAccount u1 "github" gh.profile.id with
  | some _ => u1
  | none => { u1 with accounts := u1.accounts ++ [mkLinked gh u1] }

/-- `syncUserModel`: no-op callback when the user is absent or the level is
`UNAUTHORIZED`; otherwise update the user document and save it, calling back
with the saved user (or with the save error). -/
def syncUserModel (gh : GitHub) (user : Option User) (authorization : Level) (st : Store) :
    Except AuthError (Option User) × Store :=
  match user with
  | none => (.ok none, st)
  | some u =>
    if authorization = .UNAUTHORIZED then
      (.ok none, st)
    else
      let u2 := syncedUser gh u authorization
      match st.saveFails with
      | some e => (.error e, { st with saves := st.saves + 1 })
      | none => (.ok (some u2), storeSave st u2)

/-- The strategy verification callback returned by `makeStrategyCallback`:
build the per-request GitHub client, run `findUser` and `checkAuthorization`
as the `async.parallel` pair (both tasks run; the user task is listed first,
so its error is reported when both fail), reject `UNAUTHORIZED` with the
"User not authorized" error, and otherwise synchronize the user model.
`refreshToken` is received from the strategy but never read. -/
def strategyCallback (cfg : Config) (api : ApiOracle) (cache : TeamIds) (st : Store)
    (now : Nat) (randomPw : String) (freshUid : Nat)
    (accessToken refreshToken : String) (profile : GHProfile) :
    Except AuthError (Option User) × TeamIds × Store :=
  let gh : GitHub := { profile := profile, accessToken := accessToken, api := api }
  let ru := findUser gh st now randomPw freshUid
  let ra := checkAuthorization gh cfg cache
  match ru.1, ra.1 with
  | .error e, _ => (.error e, ra.2.1, ru.2)
  | .ok _, .error e => (.error e, ra.2.1, ru.2)
  | .ok user, .ok authorization =>
    if authorization = .UNAUTHORIZED then
      (.error .userNotAuthorized, ra.2.1, ru.2)
    else
      let s := syncUserModel gh (some user) authorization ru.2
      (s.1, ra.2.1, s.2)

/-! Concrete fixtures used by the witness theorems. -/

/-- A concrete profile for witnesses. -/
def wProfile : GHProfile :=
  { id := "77", username := "octo", displayName := "Octo Cat",
    profileUrl := "https://example.test/octo", gravatarId := "grav" }

/-- A concrete email list with one unverified and two verified entries. -/
def wEmails : List EmailEntry :=
  [{ email := "A@x.com", verified := true, primary := false },
   { email := "skip@x.com", verified := false, primary := true },
   { email := "b@y.com", verified := true, primary := true }]

/-- A concrete API oracle: emails as in `wEmails`, org membership
(member, not admin), team ids 5 (access) and 9 (admin), membership only in
the access team. -/
def wApi : ApiOracle :=
  { emailsResp := .ok wEmails,
    orgResp := .ok (true, false),
    findTeamResp := fun _ name => if name == "devs" then .ok (some 5)
      else if name == "admins" then .ok (some 9) else .ok none,
    teamResp := fun id => .ok (id == 5) }

/-- A concrete API oracle whose team lookups always answer not-found and
whose org query reports a non-member. -/
def wApiNotFound : ApiOracle :=
  { emailsResp := .ok wEmails,
    orgResp := .ok (false, false),
    findTeamResp := fun _ _ => .ok none,
    teamResp := fun _ => .ok false }

/-- A concrete GitHub client over `wApi`. -/
def wGh : GitHub := { profile := wProfile, accessToken := "tok", api := wApi }

/-- A concrete GitHub client over `wApiNotFound`. -/
def wGhNotFound : GitHub := { profile := wProfile, accessToken := "tok", api := wApiNotFound }

/-- Team-mode configuration fixture. -/
def wCfgTeams : Config :=
  { orgName := "acme", accessTeamName := some "devs", adminTeamName := some "admins" }

/-- The empty team-id cache. -/
def wCache0 : TeamIds := { access := none, admin := none }

/-- An empty store with no injected failures. -/
def wStore0 : Store := { db := [], findFails := none, saveFails := none, saves := 0 }

/-- A persisted user matching `a@x.com`, with no linked accounts. -/
def wUserA : User :=
  { uid := 1, email := "a@x.com", created := 10, password := "pw1",
    projects := [], account_level := none, accounts := [] }

/-- A persisted user matching `b@y.com`. -/
def wUserB : User :=
  { uid := 2, email := "b@y.com", created := 11, password := "pw2",
    projects := [], account_level := none, accounts := [] }

/-- A store holding only `wUserA`. -/
def wStoreA : Store := { db := [wUserA], findFails := none, saveFails := none, saves := 0 }

/-- A store holding `wUserA` and `wUserB`, so that both candidate addresses
match distinct users. -/
def wStoreAB : Store := { db := [wUserA, wUserB], findFails := none, saveFails := none, saves := 0 }

/-- The account `findUser` creates from the fixture profile on an empty
store. -/
def wNewUser : User := newUser 3 "b@y.com" 42 "rnd"

/-- The store after `findUser` persisted `wNewUser` into `wStore0`. -/
def wStoreCreated : Store :=
  { db := [wNewUser], findFails := none, saveFails := none, saves := 1 }

section ScanLemmas

theorem scan_fst (l : List EmailEntry) (a : List String) (p : Option String) :
    (l.foldl scanStep (a, p)).1 = a ++ l.map (fun r => downcase r.email) := by
  induction l generalizing a p with
  | nil => simp
  | cons r rs ih =>
    simp only [List.foldl_cons, List.map_cons, scanStep]
    rw [ih]
    simp

theorem scan_snd_truthy (l : List EmailEntry) (a : List String) (p : Option String)
    (hp : optTruthy p = true) : (l.foldl scanStep (a, p)).2 = p := by
  induction l generalizing a with
  | nil => rfl
  | cons r rs ih =>
    simp only [List.foldl_cons, scanStep, hp, Bool.not_true, Bool.and_false, if_neg]
    exact ih _

theorem scan_snd_find (l : List EmailEntry) (a : List String)
    (hne : ∀ r ∈ l, downcase r.email ≠ "") :
    (l.foldl scanStep (a, none)).2
      = (l.find? (fun r => r.primary)).map (fun r => downcase r.email) := by
  induction l generalizing a with
  | nil => rfl
  | cons r rs ih =>
    by_cases hp : r.primary
    · have hr : downcase r.email ≠ "" := hne r (List.mem_cons_self r rs)
      have htr : optTruthy (some (downcase r.email)) = true := by
        simp [optTruthy, hr]
      have hstep : scanStep (a, none) r = (a ++ [downcase r.email], some (downcase r.email)) := by
        simp [scanStep, hp, optTruthy]
      simp only [List.foldl_cons, hstep]
      rw [scan_snd_truthy _ _ _ htr, List.find?_cons_of_pos _ hp]
      rfl
    · have hp' : r.primary = false := by simpa using hp
      have hstep : scanStep (a, none) r = (a ++ [downcase r.email], none) := by
        simp [scanStep, hp']
      simp only [List.foldl_cons, hstep]
      rw [List.find?_cons_of_neg _ (by simp [hp'])]
      exact ih _ (fun x hx => hne x (List.mem_cons_of_mem r hx))

end ScanLemmas

/-- Claim C5: for every email list returned by the provider (with well-formed,
nonempty addresses), `emailsFromGitHub` keeps only the verified entries,
fails with the no-verified-email error when none remain, downcases every kept
address, and picks as primary the first verified entry flagged primary,
falling back to the first verified entry in list order; it is a pure function
of the response (no state is threaded through it). -/
theorem emailsFromGitHub_spec (gh : GitHub) (es : List EmailEntry)
    (hresp : gh.api.emailsResp = .ok es)
    (hne : ∀ r ∈ es.filter (fun r => r.verified), downcase r.email ≠ "") :
    (es.filter (fun r => r.verified) = [] →
      emailsFromGitHub gh = .error .noVerifiedEmail) ∧
    (es.filter (fun r => r.verified) ≠ [] →
      emailsFromGitHub gh =
        .ok ((es.filter (fun r => r.verified)).map (fun r => downcase r.email),
          match (es.filter (fun r => r.verified)).find? (fun r => r.primary) with
          | some r => downcase r.email
          | none =>
            ((es.filter (fun r => r.verified)).map (fun r => downcase r.email)).headD "")) := by
  constructor
  · intro hv
    simp [emailsFromGitHub, hresp, hv]
  · intro hv
    have hlen : ¬ (es.filter (fun r => r.verified)).length = 0 := by
      simpa [List.length_eq_zero] using hv
    have hfst := scan_fst (es.filter (fun r => r.verified)) [] none
    have hsnd := scan_snd_find (es.filter (fun r => r.verified)) [] hne
    simp only [emailsFromGitHub, hresp, if_neg hlen, scanEmails]
    rw [hfst, hsnd]
    simp only [List.nil_append]
    cases hfind : (es.filter (fun r => r.verified)).find? (fun r => r.primary) with
    | none => simp [optTruthy]
    | some r =>
      have hrmem : r ∈ es.filter (fun r => r.verified) := List.mem_of_find?_eq_some hfind
      have hr : downcase r.email ≠ "" := hne r hrmem
      simp [optTruthy, hr]

/-- Claim C5 witness: the hypotheses of `emailsFromGitHub_spec` hold at the
concrete fixture and the concluded normalization is evaluated there. -/
theorem emailsFromGitHub_spec_witness :
    (wGh.api.emailsResp = .ok wEmails) ∧
    ((∀ r ∈ wEmails.filter (fun r => r.verified), downcase r.email ≠ "") ∧
      (wEmails.filter (fun r => r.verified) ≠ [] →
        emailsFromGitHub wGh =
          .ok ((wEmails.filter (fun r => r.verified)).map (fun r => downcase r.email),
            match (wEmails.filter (fun r => r.verified)).find? (fun r => r.primary) with
            | some r => downcase r.email
            | none =>
              ((wEmails.filter (fun r => r.verified)).map
                (fun r => downcase r.email)).headD ""))) := by
  refine ⟨rfl, by decide, ?_⟩
  exact (emailsFromGitHub_spec wGh wEmails rfl (by decide)).2

section FindUserLemmas

theorem findUser_zero (gh : GitHub) (st : Store) (now : Nat) (pw : String) (uid : Nat)
    (addresses : List String) (primary : String)
    (hemails : emailsFromGitHub gh = .ok (addresses, primary))
    (hff : st.findFails = none) (hsf : st.saveFails = none)
    (hzero : st.db.filter (fun u => addresses.contains u.email) = [])
    (hfresh : st.db.any (fun v => v.uid == uid) = false) :
    findUser gh st now pw uid =
      (.ok (newUser uid primary now pw),
        { st with db := st.db ++ [newUser uid primary now pw], saves := st.saves + 1 }) := by
  have hsave : storeSave st (newUser uid primary now pw)
      = { st with db := st.db ++ [newUser uid primary now pw], saves := st.saves + 1 } := by
    simp only [storeSave, newUser]
    rw [hfresh]
    simp
  simp only [findUser, hemails, hff, hsf]
  rw [hzero]
  simpa [hff, hsf] using hsave

theorem findUser_one (gh : GitHub) (st : Store) (now : Nat) (pw : String) (uid : Nat)
    (addresses : List String) (primary : String) (u : User)
    (hemails : emailsFromGitHub gh = .ok (addresses, primary))
    (hff : st.findFails = none)
    (hone : st.db.filter (fun v => addresses.contains v.email) = [u]) :
    findUser gh st now pw uid = (.ok u, st) := by
  simp only [findUser, hemails, hff]
  rw [hone]
  simp [List.headI]

end FindUserLemmas

/-- Claim C4: a profile whose candidate addresses match no stored account
makes `findUser` create and persist exactly one new account, whose email is
the computed primary, whose creation timestamp is `now`, whose password is
the freshly generated random credential, and whose linked-identity list is
empty; a profile matching exactly one stored account makes `findUser` return
that same record with the store untouched. -/
theorem findUser_create_or_return (gh : GitHub) (st : Store) (now : Nat) (pw : String)
    (uid : Nat) (addresses : List String) (primary : String)
    (hemails : emailsFromGitHub gh = .ok (addresses, primary))
    (hff : st.findFails = none) (hsf : st.saveFails = none)
    (hfresh : st.db.any (fun v => v.uid == uid) = false) :
    (st.db.filter (fun u => addresses.contains u.email) = [] →
      findUser gh st now pw uid =
        (.ok (newUser uid primary now pw),
          { st with db := st.db ++ [newUser uid primary now pw], saves := st.saves + 1 }) ∧
      (newUser uid primary now pw).email = primary ∧
      (newUser uid primary now pw).created = now ∧
      (newUser uid primary now pw).password = pw ∧
      (newUser uid primary now pw).accounts = []) ∧
    (∀ u : User, st.db.filter (fun v => addresses.contains v.email) = [u] →
      findUser gh st now pw uid = (.ok u, st)) := by
  constructor
  · intro hzero
    exact ⟨findUser_zero gh st now pw uid addresses primary hemails hff hsf hzero hfresh,
      rfl, rfl, rfl, rfl⟩
  · intro u hone
    exact findUser_one gh st now pw uid addresses primary u hemails hff hone

/-- Claim C4 witness: the zero-match branch on an empty store, and the
one-match branch on a store holding exactly the matching user. -/
theorem findUser_create_or_return_witness :
    (emailsFromGitHub wGh
        = .ok (["a@x.com", "b@y.com"], "b@y.com") ∧
      wStore0.findFails = none ∧ wStore0.saveFails = none ∧
      wStore0.db.any (fun v => v.uid == 3) = false ∧
      wStore0.db.filter (fun u => (["a@x.com", "b@y.com"] : List String).contains u.email)
        = []) ∧
    ((wStore0.db.filter (fun u => (["a@x.com", "b@y.com"] : List String).contains u.email) = [] →
      findUser wGh wStore0 42 "rnd" 3 =
        (.ok (newUser 3 "b@y.com" 42 "rnd"),
          { wStore0 with db := wStore0.db ++ [newUser 3 "b@y.com" 42 "rnd"],
                         saves := wStore0.saves + 1 }) ∧
      (newUser 3 "b@y.com" 42 "rnd").email = "b@y.com" ∧
      (newUser 3 "b@y.com" 42 "rnd").created = 42 ∧
      (newUser 3 "b@y.com" 42 "rnd").password = "rnd" ∧
      (newUser 3 "b@y.com" 42 "rnd").accounts = []) ∧
    (∀ u : User,
      wStore0.db.filter (fun v => (["a@x.com", "b@y.com"] : List String).contains v.email) = [u] →
      findUser wGh wStore0 42 "rnd" 3 = (.ok u, wStore0))) := by
  refine ⟨⟨rfl, rfl, rfl, rfl, rfl⟩, ?_⟩
  exact findUser_create_or_return wGh wStore0 42 "rnd" 3 ["a@x.com", "b@y.com"] "b@y.com"
    rfl rfl rfl rfl

/-- Claim C6: a profile whose candidate addresses match two or more stored
accounts makes `findUser` fail with the ambiguous-account error naming the
conflicting emails, and leaves the store exactly as it was (no account
created or mutated, no save issued). -/
theorem findUser_ambiguous (gh : GitHub) (st : Store) (now : Nat) (pw : String) (uid : Nat)
    (addresses : List String) (primary : String)
    (hemails : emailsFromGitHub gh = .ok (addresses, primary))
    (hff : st.findFails = none)
    (hlen : 1 < (st.db.filter (fun u => addresses.contains u.email)).length) :
    findUser gh st now pw uid =
      (.error (.ambiguousAccount
        ((st.db.filter (fun u => addresses.contains u.email)).map (fun r => r.email))), st) := by
  simp only [findUser, hemails, hff]
  rw [if_pos hlen]

/-- Claim C6 witness: both fixture users match the two candidate addresses. -/
theorem findUser_ambiguous_witness :
    (emailsFromGitHub wGh = .ok (["a@x.com", "b@y.com"], "b@y.com") ∧
      wStoreAB.findFails = none ∧
      1 < (wStoreAB.db.filter
        (fun u => (["a@x.com", "b@y.com"] : List String).contains u.email)).length) ∧
    findUser wGh wStoreAB 42 "rnd" 3 =
      (.error (.ambiguousAccount ["a@x.com", "b@y.com"]), wStoreAB) := by
  refine ⟨⟨rfl, rfl, by decide⟩, ?_⟩
  have h := findUser_ambiguous wGh wStoreAB 42 "rnd" 3 ["a@x.com", "b@y.com"] "b@y.com"
    rfl rfl (by decide)
  rw [h]
  rfl

/-- Claim C7: in organization-membership mode the derived level is exactly
admin for a member that is an organization admin, standard for a member that
is not, and unauthorized for a non-member, exhaustively over the reachable
cases. -/
theorem checkOrgMembership_spec (gh : GitHub) (m a : Bool)
    (h : gh.api.orgResp = .ok (m, a)) :
    (m = true → a = true → checkOrgMembership gh = .ok .ADMIN) ∧
    (m = true → a = false → checkOrgMembership gh = .ok .ACCESS) ∧
    (m = false → checkOrgMembership gh = .ok .UNAUTHORIZED) := by
  refine ⟨?_, ?_, ?_⟩ <;> intros <;> subst_vars <;> simp [checkOrgMembership, h]

/-- Claim C7 witness: the fixture org response is (member, not admin). -/
theorem checkOrgMembership_spec_witness :
    (wGh.api.orgResp = .ok (true, false)) ∧
    ((true = true → false = true → checkOrgMembership wGh = .ok .ADMIN) ∧
      (true = true → false = false → checkOrgMembership wGh = .ok .ACCESS) ∧
      (true = false → checkOrgMembership wGh = .ok .UNAUTHORIZED)) := by
  exact ⟨rfl, checkOrgMembership_spec wGh true false rfl⟩

/-- Claim C2 counterexample: with a configured access team name and an API
that reports the team as not found, the first `ensureTeamId` call caches
nothing, and a second call for the same role performs another
`findTeamWithName` API lookup — contradicting the claim that a not-found
reply is cached as absent so that no further lookup is attempted for that
role for the life of the process. -/
theorem ensureTeamId_notFound_not_cached :
    (ensureTeamId wGhNotFound wCfgTeams .access wCache0).2.1 = wCache0 ∧
    (ensureTeamId wGhNotFound wCfgTeams .access
      (ensureTeamId wGhNotFound wCfgTeams .access wCache0).2.1).2.2 = 1 :=
  ⟨rfl, rfl⟩

/-- Claim C2 (amended): for every role with a configured team name and no
cached identifier, a successful team lookup caches the identifier; a
not-found reply caches nothing, leaving the entry unresolved, so a future
call performs the API lookup again; and a transport/API error is returned
without caching, so a future call may retry.  Once an identifier is cached,
no lookup is performed. -/
theorem ensureTeamId_spec (gh : GitHub) (cfg : Config) (role : Role) (cache : TeamIds)
    (hmiss : cache.get role = none)
    (hname : optTruthy (teamNameFor cfg role) = true) :
    (∀ id, gh.api.findTeamResp cfg.orgName ((teamNameFor cfg role).getD "") = .ok (some id) →
      ensureTeamId gh cfg role cache = (.ok (), cache.set role id, 1)) ∧
    (gh.api.findTeamResp cfg.orgName ((teamNameFor cfg role).getD "") = .ok none →
      ensureTeamId gh cfg role cache = (.ok (), cache, 1)) ∧
    (∀ e, gh.api.findTeamResp cfg.orgName ((teamNameFor cfg role).getD "") = .error e →
      ensureTeamId gh cfg role cache = (.error e, cache, 1)) ∧
    (∀ cache' : TeamIds, (cache'.get role).isSome = true →
      ensureTeamId gh cfg role cache' = (.ok (), cache', 0)) := by
  have hm : (cache.get role).isSome = false := by rw [hmiss]; rfl
  refine ⟨?_, ?_, ?_, ?_⟩
  · intro id h
    simp [ensureTeamId, hm, hname, h]
  · intro h
    simp [ensureTeamId, hm, hname, h]
  · intro e h
    simp [ensureTeamId, hm, hname, h]
  · intro cache' hsome
    simp [ensureTeamId, hsome]

/-- Claim C2 witness: the fixture oracle resolves the configured access team
to id 5, which the call caches. -/
theorem ensureTeamId_spec_witness :
    (wCache0.get .access = none ∧ optTruthy (teamNameFor wCfgTeams .access) = true ∧
      wGh.api.findTeamResp wCfgTeams.orgName ((teamNameFor wCfgTeams .access).getD "")
        = .ok (some 5)) ∧
    ensureTeamId wGh wCfgTeams .access wCache0 = (.ok (), wCache0.set .access 5, 1) := by
  refine ⟨⟨rfl, rfl, rfl⟩, ?_⟩
  exact (ensureTeamId_spec wGh wCfgTeams .access wCache0 rfl rfl).1 5 rfl

/-- Claim C3: in team-membership mode, once id resolution has completed
without error, an unresolved identifier for either role yields
`UNAUTHORIZED` with no `belongsToTeam` API call at all; with both
identifiers resolved and both membership queries answered, admin-team
membership yields `ADMIN` regardless of the access-team answer, otherwise
access-team membership yields `ACCESS`, otherwise `UNAUTHORIZED`. -/
theorem checkTeamMembership_spec (gh : GitHub) (cfg : Config) (cache : TeamIds)
    (hok : (ensureTeamIds gh cfg cache).1 = .ok ()) :
    ((((ensureTeamIds gh cfg cache).2.1).access = none ∨
        ((ensureTeamIds gh cfg cache).2.1).admin = none) →
      checkTeamMembership gh cfg cache
        = (.ok .UNAUTHORIZED, (ensureTeamIds gh cfg cache).2.1, 0)) ∧
    (∀ accessId adminId a d,
      ((ensureTeamIds gh cfg cache).2.1).access = some accessId →
      ((ensureTeamIds gh cfg cache).2.1).admin = some adminId →
      gh.api.teamResp accessId = .ok a →
      gh.api.teamResp adminId = .ok d →
      checkTeamMembership gh cfg cache
        = (.ok (if d then .ADMIN else if a then .ACCESS else .UNAUTHORIZED),
          (ensureTeamIds gh cfg cache).2.1, 2)) := by
  constructor
  · intro hnone
    rcases hnone with h | h
    · simp [checkTeamMembership, hok, h]
    · cases hacc : ((ensureTeamIds gh cfg cache).2.1).access with
      | none => simp [checkTeamMembership, hok, hacc]
      | some i => simp [checkTeamMembership, hok, hacc, h]
  · intro accessId adminId a d hacc hadm ha hd
    cases d <;> cases a <;> simp [checkTeamMembership, hok, hacc, hadm, ha, hd]

/-- Claim C3 witness: both teams resolve (ids 5 and 9), the caller belongs
to the access team only, and the derived level is `ACCESS` with both
membership queries issued. -/
theorem checkTeamMembership_spec_witness :
    ((ensureTeamIds wGh wCfgTeams wCache0).1 = .ok () ∧
      ((ensureTeamIds wGh wCfgTeams wCache0).2.1).access = some 5 ∧
      ((ensureTeamIds wGh wCfgTeams wCache0).2.1).admin = some 9 ∧
      wGh.api.teamResp 5 = .ok true ∧
      wGh.api.teamResp 9 = .ok false) ∧
    checkTeamMembership wGh wCfgTeams wCache0
      = (.ok .ACCESS, (ensureTeamIds wGh wCfgTeams wCache0).2.1, 2) := by
  refine ⟨⟨rfl, rfl, rfl, rfl, rfl⟩, ?_⟩
  have h := (checkTeamMembership_spec wGh wCfgTeams wCache0 rfl).2 5 9 true false
    rfl rfl rfl rfl
  rw [h]
  rfl

section SyncLemmas

theorem userAccount_eq_find (w : User) (p i : String) :
    userAccount w p i = w.accounts.find? (fun x => x.provider == p && x.id == i) := rfl

theorem syncedUser_accounts (gh : GitHub) (u : User) (a : Level) :
    (syncedUser gh u a).accounts
      = match userAccount u "github" gh.profile.id with
        | some _ => u.accounts
        | none => u.accounts ++ [mkLinked gh { u with account_level := some a }] := by
  simp only [syncedUser, userAccount]
  cases hfind : u.accounts.find? (fun x => x.provider == "github" && x.id == gh.profile.id) <;>
    simp [hfind]

theorem find?_append_mkLinked (gh : GitHub) (l : List LinkedAccount) (v : User)
    (h : l.find? (fun x => x.provider == "github" && x.id == gh.profile.id) = none) :
    (l ++ [mkLinked gh v]).find? (fun x => x.provider == "github" && x.id == gh.profile.id)
      = some (mkLinked gh v) := by
  rw [List.find?_append, h]
  simp [mkLinked]

end SyncLemmas

theorem strategy_unauthorized (cfg : Config) (api : ApiOracle) (cache : TeamIds) (st : Store)
    (now : Nat) (pw : String) (uid : Nat) (tok rt : String) (profile : GHProfile)
    (u : User) (st' : Store) (c' : TeamIds) (n : Nat)
    (hUser : findUser { profile := profile, accessToken := tok, api := api } st now pw uid
      = (.ok u, st'))
    (hAuth : checkAuthorization { profile := profile, accessToken := tok, api := api } cfg cache
      = (.ok .UNAUTHORIZED, c', n)) :
    strategyCallback cfg api cache st now pw uid tok rt profile
      = (.error .userNotAuthorized, c', st') := by
  simp [strategyCallback, hUser, hAuth]

/-- Claim C1: an attempt whose derived level is `UNAUTHORIZED` writes
nothing: `syncUserModel` on an absent user or an `UNAUTHORIZED` level
returns with the store untouched (no level change, no appended identity, no
save), the whole attempt ends in the authorization-denied error with the
store exactly as account resolution left it, and that error is distinct
from every transport error. -/
theorem unauthorized_attempt_no_write (cfg : Config) (api : ApiOracle) (cache : TeamIds)
    (st : Store) (now : Nat) (pw : String) (uid : Nat) (tok rt : String)
    (profile : GHProfile) (u : User) (st' : Store) (c' : TeamIds) (n : Nat)
    (hUser : findUser { profile := profile, accessToken := tok, api := api } st now pw uid
      = (.ok u, st'))
    (hAuth : checkAuthorization { profile := profile, accessToken := tok, api := api } cfg cache
      = (.ok .UNAUTHORIZED, c', n)) :
    (∀ (gh : GitHub) (a : Level) (s : Store), syncUserModel gh none a s = (.ok none, s)) ∧
    (∀ (gh : GitHub) (v : User) (s : Store),
      syncUserModel gh (some v) .UNAUTHORIZED s = (.ok none, s)) ∧
    strategyCallback cfg api cache st now pw uid tok rt profile
      = (.error .userNotAuthorized, c', st') ∧
    (∀ msg, AuthError.userNotAuthorized ≠ AuthError.transport msg) := by
  refine ⟨fun gh a s => rfl, fun gh v s => rfl, ?_, fun msg h => by cases h⟩
  exact strategy_unauthorized cfg api cache st now pw uid tok rt profile u st' c' n hUser hAuth

/-- Claim C1 witness: team mode with both team lookups answering not-found
derives `UNAUTHORIZED`; the attempt fails with the denial error and the
store keeps exactly the state account resolution produced. -/
theorem unauthorized_attempt_no_write_witness :
    (findUser { profile := wProfile, accessToken := "tok", api := wApiNotFound }
        wStore0 42 "rnd" 3 = (.ok wNewUser, wStoreCreated) ∧
      checkAuthorization { profile := wProfile, accessToken := "tok", api := wApiNotFound }
        wCfgTeams wCache0 = (.ok .UNAUTHORIZED, wCache0, 0)) ∧
    ((∀ (gh : GitHub) (a : Level) (s : Store), syncUserModel gh none a s = (.ok none, s)) ∧
      (∀ (gh : GitHub) (v : User) (s : Store),
        syncUserModel gh (some v) .UNAUTHORIZED s = (.ok none, s)) ∧
      strategyCallback wCfgTeams wApiNotFound wCache0 wStore0 42 "rnd" 3 "tok" "refresh" wProfile
        = (.error .userNotAuthorized, wCache0, wStoreCreated) ∧
      (∀ msg, AuthError.userNotAuthorized ≠ AuthError.transport msg)) := by
  refine ⟨⟨rfl, rfl⟩, ?_⟩
  exact unauthorized_attempt_no_write wCfgTeams wApiNotFound wCache0 wStore0 42 "rnd" 3
    "tok" "refresh" wProfile wNewUser wStoreCreated wCache0 0 rfl rfl

/-- Claim C8: on an authorized attempt, a user with no linked identity for
(github, profile id) gains exactly one appended identity populated from the
profile and the current access token; a user that already has one keeps its
identity list untouched, so a second synchronization of the same profile
appends nothing; the updated document is then saved. -/
theorem sync_link_idempotent (gh : GitHub) (u : User) (a : Level) (st : Store)
    (ha : a ≠ .UNAUTHORIZED) :
    (userAccount u "github" gh.profile.id = none →
      (syncedUser gh u a).accounts
        = u.accounts ++ [mkLinked gh { u with account_level := some a }]) ∧
    (∀ acc, userAccount u "github" gh.profile.id = some acc →
      (syncedUser gh u a).accounts = u.accounts) ∧
    (syncedUser gh (syncedUser gh u a) a).accounts = (syncedUser gh u a).accounts ∧
    (st.saveFails = none →
      syncUserModel gh (some u) a st
        = (.ok (some (syncedUser gh u a)), storeSave st (syncedUser gh u a))) := by
  refine ⟨?_, ?_, ?_, ?_⟩
  · intro h
    rw [syncedUser_accounts, h]
  · intro acc h
    rw [syncedUser_accounts, h]
  · rw [syncedUser_accounts gh (syncedUser gh u a) a]
    cases hfind : userAccount u "github" gh.profile.id with
    | some acc =>
      have hacc : (syncedUser gh u a).accounts = u.accounts := by
        rw [syncedUser_accounts, hfind]
      have : userAccount (syncedUser gh u a) "github" gh.profile.id = some acc := by
        rw [userAccount_eq_find, hacc, ← userAccount_eq_find, hfind]
      rw [this]
    | none =>
      have hacc : (syncedUser gh u a).accounts
          = u.accounts ++ [mkLinked gh { u with account_level := some a }] := by
        rw [syncedUser_accounts, hfind]
      have : userAccount (syncedUser gh u a) "github" gh.profile.id
          = some (mkLinked gh { u with account_level := some a }) := by
        rw [userAccount_eq_find, hacc]
        exact find?_append_mkLinked gh u.accounts _ (by
          rw [← userAccount_eq_find]; exact hfind)
      rw [this]
  · intro hsf
    simp only [syncUserModel, if_neg ha, hsf]

/-- Claim C8 witness: the fixture user has no linked account, so the
identity for the fixture profile is appended. -/
theorem sync_link_idempotent_witness :
    (Level.ACCESS ≠ Level.UNAUTHORIZED) ∧
    ((userAccount wUserA "github" wGh.profile.id = none →
      (syncedUser wGh wUserA .ACCESS).accounts
        = wUserA.accounts ++ [mkLinked wGh { wUserA with account_level := some .ACCESS }]) ∧
    (∀ acc, userAccount wUserA "github" wGh.profile.id = some acc →
      (syncedUser wGh wUserA .ACCESS).accounts = wUserA.accounts) ∧
    (syncedUser wGh (syncedUser wGh wUserA .ACCESS) .ACCESS).accounts
      = (syncedUser wGh wUserA .ACCESS).accounts ∧
    (wStoreA.saveFails = none →
      syncUserModel wGh (some wUserA) .ACCESS wStoreA
        = (.ok (some (syncedUser wGh wUserA .ACCESS)),
          storeSave wStoreA (syncedUser wGh wUserA .ACCESS)))) :=
  ⟨by decide, sync_link_idempotent wGh wUserA .ACCESS wStoreA (by decide)⟩

/-- Claim C9: a profile with verified emails matching no stored account,
evaluated to `UNAUTHORIZED`, still leaves the freshly created account
persisted in the store when the attempt fails with the denial error — the
creation performed by the resolver branch is not rolled back. -/
theorem denied_attempt_keeps_created_account (cfg : Config) (api : ApiOracle)
    (cache : TeamIds) (st : Store) (now : Nat) (pw : String) (uid : Nat)
    (tok rt : String) (profile : GHProfile) (addresses : List String) (primary : String)
    (c' : TeamIds) (n : Nat)
    (hemails : emailsFromGitHub { profile := profile, accessToken := tok, api := api }
      = .ok (addresses, primary))
    (hff : st.findFails = none) (hsf : st.saveFails = none)
    (hzero : st.db.filter (fun u => addresses.contains u.email) = [])
    (hfresh : st.db.any (fun v => v.uid == uid) = false)
    (hAuth : checkAuthorization { profile := profile, accessToken := tok, api := api } cfg cache
      = (.ok .UNAUTHORIZED, c', n)) :
    strategyCallback cfg api cache st now pw uid tok rt profile
      = (.error .userNotAuthorized, c',
        { st with db := st.db ++ [newUser uid primary now pw], saves := st.saves + 1 }) := by
  have hU := findUser_zero { profile := profile, accessToken := tok, api := api }
    st now pw uid addresses primary hemails hff hsf hzero hfresh
  exact strategy_unauthorized cfg api cache st now pw uid tok rt profile
    (newUser uid primary now pw)
    { st with db := st.db ++ [newUser uid primary now pw], saves := st.saves + 1 }
    c' n hU hAuth

/-- Claim C9 witness: the not-found team fixtures derive `UNAUTHORIZED`, yet
the created fixture account is persisted when the attempt is denied. -/
theorem denied_attempt_keeps_created_account_witness :
    (emailsFromGitHub { profile := wProfile, accessToken := "tok", api := wApiNotFound }
        = .ok (["a@x.com", "b@y.com"], "b@y.com") ∧
      wStore0.findFails = none ∧ wStore0.saveFails = none ∧
      wStore0.db.filter
        (fun u => (["a@x.com", "b@y.com"] : List String).contains u.email) = [] ∧
      wStore0.db.any (fun v => v.uid == 3) = false ∧
      checkAuthorization { profile := wProfile, accessToken := "tok", api := wApiNotFound }
        wCfgTeams wCache0 = (.ok .UNAUTHORIZED, wCache0, 0)) ∧
    strategyCallback wCfgTeams wApiNotFound wCache0 wStore0 42 "rnd" 3 "tok" "r2" wProfile
      = (.error .userNotAuthorized, wCache0, wStoreCreated) := by
  refine ⟨⟨rfl, rfl, rfl, rfl, rfl, rfl⟩, ?_⟩
  exact denied_attempt_keeps_created_account wCfgTeams wApiNotFound wCache0 wStore0 42 "rnd" 3
    "tok" "r2" wProfile ["a@x.com", "b@y.com"] "b@y.com" wCache0 0 rfl rfl rfl rfl rfl rfl

/-- Claim C10: two invocations of the strategy callback that differ only in
the refresh-token argument produce identical results — error, account, cache
and store alike; the refresh token is received but never read. -/
theorem refreshToken_irrelevant (cfg : Config) (api : ApiOracle) (cache : TeamIds)
    (st : Store) (now : Nat) (pw : String) (uid : Nat) (tok rt1 rt2 : String)
    (profile : GHProfile) :
    strategyCallback cfg api cache st now pw uid tok rt1 profile
      = strategyCallback cfg api cache st now pw uid tok rt2 profile := rfl
